import Mathlib

/-
Verification of the Classification & Routing Engine of the internal-ticketer
repository (the rules module: SLA rules, escalation rules, department routing,
keyword-based priority/category detection, and SLA deadline arithmetic).

Modelling conventions:
* JavaScript strings are Lean `String`s; `s.toLowerCase()` is `lowerStr s`,
  and `s.includes(pat)` is `strIncludes s pat`, a direct substring scan over the
  character lists.
* JavaScript object literals used as lookup tables are association lists
  `List (String × _)` in declaration order; property access `T[k]` with the
  `|| fallback` idiom becomes `List.find?` plus an explicit fallback.
* JavaScript `Date` values are modelled as integer epoch milliseconds; the
  calendar-hour addition `d.setHours(d.getHours() + h)` is modelled as adding
  `h * 3600000` milliseconds (fixed-offset clock, no DST), and the implicit
  `new Date()` current-time reads are passed in as an explicit `now` argument.
-/

namespace Ticketer

/-- The four priority tiers, i.e. the keys of the `SLA_RULES` object in
declaration order critical, high, medium, low. -/
inductive Priority where
  | critical
  | high
  | medium
  | low
deriving DecidableEq, Repr

/-- The string key each priority tier has in the `SLA_RULES` object literal. -/
def Priority.key : Priority → String
  | .critical => "critical"
  | .high => "high"
  | .medium => "medium"
  | .low => "low"

/-- The keys of `SLA_RULES` in declaration order. -/
def PRIORITY_LEVELS : List Priority :=
  [Priority.critical, Priority.high, Priority.medium, Priority.low]

/-- One entry of the `SLA_RULES` table. -/
structure SLARule where
  label : String
  responseMinutes : Nat
  resolutionHours : Nat
  escalationHours : Nat
  description : String
deriving DecidableEq, Repr

/-- The `SLA_RULES` table: SLA budgets by priority. -/
def SLA_RULES : Priority → SLARule
  | .critical =>
    ⟨"Critical", 15, 2, 1,
      "Immediate response required for safety/security issues"⟩
  | .high =>
    ⟨"High", 60, 8, 4,
      "Urgent issues affecting customer experience"⟩
  | .medium =>
    ⟨"Medium", 240, 24, 12,
      "Standard priority for general issues"⟩
  | .low =>
    ⟨"Low", 480, 72, 48,
      "Non-urgent requests and feedback"⟩

/-- One entry of the `ESCALATION_RULES` table. -/
structure EscalationRule where
  escalateTo : String
  priority : String
  immediate : Bool
  notifyLevel : String
deriving DecidableEq, Repr

/-- The `ESCALATION_RULES` object literal as an association list in declaration
order. -/
def ESCALATION_RULES : List (String × EscalationRule) :=
  [("Injury During Class", ⟨"Management", "critical", true, "all"⟩),
   ("Medical Emergency", ⟨"Management", "critical", true, "all"⟩),
   ("Theft", ⟨"Security", "critical", true, "management"⟩),
   ("Safety Hazard", ⟨"Facilities", "critical", true, "management"⟩),
   ("Fire/Emergency", ⟨"Management", "critical", true, "all"⟩),
   ("Medical Disclosure", ⟨"HR", "high", true, "department"⟩),
   ("Discrimination", ⟨"HR", "high", false, "management"⟩),
   ("Staff Misconduct", ⟨"HR", "high", false, "management"⟩),
   ("Payment Processing", ⟨"Finance", "high", false, "department"⟩),
   ("Harassment", ⟨"HR", "high", true, "management"⟩),
   ("Data Breach", ⟨"IT/Tech Support", "critical", true, "all"⟩),
   ("Refund Request", ⟨"Finance", "medium", false, "department"⟩),
   ("Equipment Damage", ⟨"Facilities", "medium", false, "department"⟩),
   ("App Outage", ⟨"IT/Tech Support", "high", true, "department"⟩)]

/-- One entry of the `DEPARTMENT_ROUTING` table. -/
structure DeptRouting where
  primary : String
  secondary : String
  escalationPath : List String
deriving DecidableEq, Repr

/-- The designated fallback entry of `DEPARTMENT_ROUTING`, keyed
"Miscellaneous". -/
def MISC_ROUTING : DeptRouting :=
  ⟨"Operations", "Client Success", ["Operations", "Client Success", "Management"]⟩

/-- The `DEPARTMENT_ROUTING` object literal as an association list in
declaration order. -/
def DEPARTMENT_ROUTING : List (String × DeptRouting) :=
  [("Booking & Technology",
     ⟨"IT/Tech Support", "Operations", ["IT/Tech Support", "Operations", "Management"]⟩),
   ("Customer Service",
     ⟨"Client Success", "Operations", ["Client Success", "Operations", "Management"]⟩),
   ("Health & Safety",
     ⟨"Operations", "Facilities", ["Operations", "Facilities", "Management"]⟩),
   ("Retail Management",
     ⟨"Sales", "Operations", ["Sales", "Operations", "Finance"]⟩),
   ("Community & Culture",
     ⟨"HR", "Operations", ["HR", "Operations", "Management"]⟩),
   ("Sales & Marketing",
     ⟨"Sales", "Marketing", ["Sales", "Marketing", "Management"]⟩),
   ("Special Programs",
     ⟨"Operations", "Training", ["Operations", "Training", "Management"]⟩),
   ("Miscellaneous", MISC_ROUTING),
   ("Global",
     ⟨"Management", "Operations", ["Management", "Operations"]⟩)]

/-- The `critical` keyword list of `PRIORITY_KEYWORDS`. -/
def criticalKeywords : List String :=
  ["emergency", "injury", "hurt", "bleeding", "unconscious", "theft", "stolen",
   "fire", "safety hazard", "medical emergency", "cardiac", "ambulance", "police",
   "violence", "assault", "weapon", "threat"]

/-- The `high` keyword list of `PRIORITY_KEYWORDS`. -/
def highKeywords : List String :=
  ["angry", "furious", "upset", "complaint", "refund", "payment failed", "overcharged",
   "rude staff", "misconduct", "discrimination", "harassment", "unacceptable",
   "demand", "legal", "lawyer", "manager", "escalate", "immediate", "urgent"]

/-- The `medium` keyword list of `PRIORITY_KEYWORDS`. -/
def mediumKeywords : List String :=
  ["issue", "problem", "not working", "broken", "feedback", "concern", "question",
   "help", "confused", "disappointed", "trouble", "incorrect"]

/-- The `low` keyword list of `PRIORITY_KEYWORDS`. -/
def lowKeywords : List String :=
  ["suggestion", "feature request", "minor", "when possible", "no rush",
   "idea", "consider", "future", "nice to have", "optional"]

/-- The `PRIORITY_KEYWORDS` object literal as an association list in
declaration order critical, high, medium, low. -/
def PRIORITY_KEYWORDS : List (Priority × List String) :=
  [(Priority.critical, criticalKeywords),
   (Priority.high, highKeywords),
   (Priority.medium, mediumKeywords),
   (Priority.low, lowKeywords)]

/-- The `CATEGORY_KEYWORDS` object literal as an association list in
declaration order. -/
def CATEGORY_KEYWORDS : List (String × List String) :=
  [("Booking & Technology",
    ["app", "website", "login", "password", "booking", "reservation", "payment",
     "credit card", "crashed", "error", "bug", "notification", "link", "download",
     "mobile", "browser", "account", "email verification", "sync", "loading"]),
   ("Customer Service",
    ["staff", "front desk", "service", "attitude", "rude", "unhelpful", "wait time",
     "response", "communication", "receptionist", "greeting", "check-in", "professional"]),
   ("Health & Safety",
    ["injury", "hurt", "accident", "medical", "unsafe", "equipment broken", "cleaning",
     "hygiene", "covid", "sanitize", "ventilation", "temperature", "slippery", "hazard"]),
   ("Retail Management",
    ["product", "merchandise", "purchase", "price", "return", "exchange", "size",
     "stock", "sold out", "defective", "quality", "water bottle", "towel", "mat"]),
   ("Community & Culture",
    ["member", "clique", "exclusion", "discrimination", "inclusive", "culture",
     "behavior", "community", "atmosphere", "welcoming", "friendly"]),
   ("Sales & Marketing",
    ["promotion", "discount", "membership", "trial", "referral", "advertisement",
     "misleading", "social media", "package", "pricing", "contract", "cancellation"]),
   ("Special Programs",
    ["workshop", "event", "private session", "corporate", "challenge", "competition",
     "special class", "masterclass", "retreat", "popup"])]

/-- The `MEMBER_EXPERIENCE_KEYWORDS` list. -/
def MEMBER_EXPERIENCE_KEYWORDS : List String :=
  ["class", "trainer", "instructor", "teacher", "session", "workout", "exercise",
   "form", "technique", "music", "volume", "pace", "level", "difficulty",
   "crowded", "space", "equipment", "mat", "props", "late", "early",
   "substitution", "sub", "replacement", "quality", "experience", "vibe"]

/-- Embedding of JavaScript `s.toLowerCase()`: lower-case every character. -/
def lowerStr (s : String) : String :=
  String.mk (s.data.map Char.toLower)

/-- Does `needle` match the start of `haystack` character for character? -/
def listLeadMatch : List Char → List Char → Bool
  | [], _ => true
  | _ :: _, [] => false
  | a :: as, b :: bs => a == b && listLeadMatch as bs

/-- Does `needle` occur as a contiguous run anywhere in `haystack`?  The empty
needle always occurs, matching JavaScript `String.prototype.includes`. -/
def listSub (needle : List Char) : List Char → Bool
  | [] => needle.isEmpty
  | b :: bs => listLeadMatch needle (b :: bs) || listSub needle bs

/-- Embedding of JavaScript `s.includes(pat)`: substring containment. -/
def strIncludes (s pat : String) : Bool :=
  listSub pat.data s.data

/-- The per-keyword test done inside every detection loop:
`lowerText.includes(keyword.toLowerCase())`. -/
def kwMatch (lowerText kw : String) : Bool :=
  strIncludes lowerText (lowerStr kw)

/-- Embedding of `detectPriority`: lower-case the text, scan the tiers of
`PRIORITY_KEYWORDS` in declaration order and return the first tier one of whose
keywords occurs in the text; default `medium`. -/
def detectPriority (text : String) : Priority :=
  let lowerText := lowerStr text
  match PRIORITY_KEYWORDS.find? (fun e => e.2.any (fun kw => kwMatch lowerText kw)) with
  | some e => e.1
  | none => Priority.medium

/-- The number of keywords of `keywords` occurring in `lowerText`: the value of
the `matches` counter after the inner loop of `detectCategory`. -/
def countMatches (lowerText : String) (keywords : List String) : Nat :=
  keywords.countP (fun kw => kwMatch lowerText kw)

/-- The accumulator loop of `detectCategory`: carry the best `(category, count)`
pair, replacing it only on a strictly greater count. -/
def foldBest : String × Nat → List (String × Nat) → String × Nat
  | acc, [] => acc
  | acc, e :: t => if e.2 > acc.2 then foldBest e t else foldBest acc t

/-- Embedding of `detectCategory`: lower-case the text, count keyword matches
per category in declaration order, keep the first category with the strictly
greatest count, starting from `("Customer Service", 0)`. -/
def detectCategory (text : String) : String :=
  let lowerText := lowerStr text
  (foldBest ("Customer Service", 0)
    (CATEGORY_KEYWORDS.map (fun e => (e.1, countMatches lowerText e.2)))).1

/-- Embedding of `requiresClassDetails`. -/
def requiresClassDetails (text priority category : String) : Bool :=
  let lowerText := lowerStr text
  if priority == "critical" then true
  else if category == "Customer Service" || category == "Health & Safety" then
    MEMBER_EXPERIENCE_KEYWORDS.any (fun kw => kwMatch lowerText kw)
  else false

/-- Embedding of `getEscalationRule`: exact key lookup, `none` on a miss
(the `ESCALATION_RULES[subcategory] || null` idiom). -/
def getEscalationRule (subcategory : String) : Option EscalationRule :=
  (ESCALATION_RULES.find? (fun e => e.1 == subcategory)).map (fun e => e.2)

/-- Embedding of `getDepartmentRouting`: exact key lookup, falling back to the
"Miscellaneous" entry on a miss
(the `DEPARTMENT_ROUTING[category] || DEPARTMENT_ROUTING["Miscellaneous"]` idiom). -/
def getDepartmentRouting (category : String) : DeptRouting :=
  match DEPARTMENT_ROUTING.find? (fun e => e.1 == category) with
  | some e => e.2
  | none => MISC_ROUTING

/-- Embedding of `calculateSLADeadline` over epoch milliseconds: add the
priority's `resolutionHours` budget (an hour being a fixed 3600000 ms here)
to the creation time. -/
def calculateSLADeadline (priority : Priority) (createdAt : Int) : Int :=
  createdAt + ((SLA_RULES priority).resolutionHours : Int) * 3600000

/-- State-passing embedding of `calculateSLADeadline` keeping the caller's
`createdAt` cell explicit: `new Date(createdAt)` copies the value into a fresh
`deadline` cell, `setHours` mutates only that fresh cell, and the pair returned
is (final deadline cell, final value of the caller's `createdAt` cell). -/
def calculateSLADeadlineSt (priority : Priority) (createdAt : Int) :
    Int × Int :=
  let deadline := createdAt
  let deadline2 := deadline + ((SLA_RULES priority).resolutionHours : Int) * 3600000
  (deadline2, createdAt)

/-- Embedding of `isNearingSLA`, with the `new Date()` read passed as `now`. -/
def isNearingSLA (slaDueAt : Int) (priority : Priority) (now : Int) : Bool :=
  let warningThreshold : Int := ((SLA_RULES priority).escalationHours : Int) * 60 * 60 * 1000
  let timeRemaining := slaDueAt - now
  timeRemaining > 0 && timeRemaining ≤ warningThreshold

/-- Embedding of `isSLABreached`, with the `new Date()` read passed as `now`. -/
def isSLABreached (slaDueAt : Int) (now : Int) : Bool :=
  now > slaDueAt

/-- Is a string one of the `SLA_RULES` keys? -/
def validPriorityKey (s : String) : Bool :=
  PRIORITY_LEVELS.any (fun p => p.key == s)

/-- The maximum of `m` and the counts (second components) of `l`. -/
def listMax : List (String × Nat) → Nat → Nat
  | [], m => m
  | e :: t, m => listMax t (max m e.2)

/-- Modelled from the spec words for `detectCategory`: the category with the
strictly greatest keyword-match count, ties resolved in favour of the first
category in declared table order to reach the maximum, with default
"Customer Service" when every category has zero matches. -/
def detectCategorySpec (text : String) : String :=
  let counts := CATEGORY_KEYWORDS.map (fun e => (e.1, countMatches (lowerStr text) e.2))
  let best := listMax counts 0
  if best = 0 then "Customer Service"
  else ((counts.find? (fun e => e.2 == best)).map (fun e => e.1)).getD "Customer Service"

/- ### Helper lemmas -/

theorem le_listMax (l : List (String × Nat)) (m : Nat) : m ≤ listMax l m := by
  induction l generalizing m with
  | nil => exact Nat.le_refl m
  | cons e t ih => exact Nat.le_trans (Nat.le_max_left m e.2) (ih (max m e.2))

theorem snd_le_listMax (l : List (String × Nat)) (m : Nat) :
    ∀ f ∈ l, f.2 ≤ listMax l m := by
  induction l generalizing m with
  | nil => intro f hf; cases hf
  | cons e t ih =>
    intro f hf
    rcases List.mem_cons.mp hf with rfl | hf
    · exact Nat.le_trans (Nat.le_max_right m f.2) (le_listMax t _)
    · exact ih _ f hf

theorem listMax_attained (l : List (String × Nat)) (m : Nat) :
    listMax l m = m ∨ ∃ f ∈ l, f.2 = listMax l m := by
  induction l generalizing m with
  | nil => exact Or.inl rfl
  | cons e t ih =>
    rcases ih (max m e.2) with h | ⟨f, hf, hf2⟩
    · rcases Nat.le_total e.2 m with hle | hle
      · refine Or.inl ?_
        show listMax t (max m e.2) = m
        rw [h, Nat.max_eq_left hle]
      · refine Or.inr ⟨e, List.mem_cons_self e t, ?_⟩
        show e.2 = listMax t (max m e.2)
        rw [h, Nat.max_eq_right hle]
    · exact Or.inr ⟨f, List.mem_cons_of_mem e hf, hf2⟩

theorem find?_congr_mem {p q : String × Nat → Bool} (l : List (String × Nat))
    (h : ∀ x ∈ l, p x = q x) : l.find? p = l.find? q := by
  induction l with
  | nil => rfl
  | cons e t ih =>
    have he := h e (List.mem_cons_self e t)
    cases hq : q e
    · rw [List.find?_cons_of_neg _ (by simp [he, hq]),
        List.find?_cons_of_neg _ (by simp [hq])]
      exact ih (fun x hx => h x (List.mem_cons_of_mem e hx))
    · rw [List.find?_cons_of_pos _ (by simp [he, hq]),
        List.find?_cons_of_pos _ (by simp [hq])]

theorem foldBest_eq_find (l : List (String × Nat)) (acc : String × Nat) :
    foldBest acc l =
      (l.find? (fun e => decide (acc.2 < e.2) && decide (listMax l acc.2 ≤ e.2))).getD acc := by
  induction l generalizing acc with
  | nil => rfl
  | cons e t ih =>
    show (if e.2 > acc.2 then foldBest e t else foldBest acc t) = _
    by_cases hlt : acc.2 < e.2
    · rw [if_pos hlt, ih e]
      have hmax : max acc.2 e.2 = e.2 := Nat.max_eq_right (Nat.le_of_lt hlt)
      show _ = ((e :: t).find?
        (fun f => decide (acc.2 < f.2) && decide (listMax t (max acc.2 e.2) ≤ f.2))).getD acc
      rw [hmax]
      by_cases hM : listMax t e.2 ≤ e.2
      · rw [List.find?_cons_of_pos _ (by simp [hlt, hM])]
        have hnone : t.find? (fun f => decide (e.2 < f.2) && decide (listMax t e.2 ≤ f.2)) = none :=
          List.find?_eq_none.mpr (fun f hf => by
            have := snd_le_listMax t e.2 f hf
            simp only [Bool.and_eq_true, decide_eq_true_eq, not_and]
            omega)
        rw [hnone]
        rfl
      · rw [List.find?_cons_of_neg _ (by simp [hM])]
        have hcong : t.find? (fun f => decide (e.2 < f.2) && decide (listMax t e.2 ≤ f.2))
            = t.find? (fun f => decide (acc.2 < f.2) && decide (listMax t e.2 ≤ f.2)) := by
          apply find?_congr_mem
          intro f hf
          by_cases h2 : listMax t e.2 ≤ f.2
          · have h3 : e.2 < f.2 := by omega
            have h4 : acc.2 < f.2 := by omega
            simp [h2, h3, h4]
          · simp [h2]
        rw [hcong]
        rcases hres : t.find? (fun f => decide (acc.2 < f.2) && decide (listMax t e.2 ≤ f.2)) with _ | f
        · exfalso
          rcases listMax_attained t e.2 with hat | ⟨f, hf, hf2⟩
          · omega
          · have := List.find?_eq_none.mp hres f hf
            simp only [Bool.and_eq_true, decide_eq_true_eq, not_and] at this
            omega
        · rw [hres]
          rfl
    · rw [if_neg hlt, ih acc]
      have hmax : max acc.2 e.2 = acc.2 := Nat.max_eq_left (Nat.le_of_not_lt hlt)
      show _ = ((e :: t).find?
        (fun f => decide (acc.2 < f.2) && decide (listMax t (max acc.2 e.2) ≤ f.2))).getD acc
      rw [hmax, List.find?_cons_of_neg _ (by simp [hlt])]

theorem foldBest_fst_mem (l : List (String × Nat)) (acc : String × Nat) :
    (foldBest acc l).1 = acc.1 ∨ (foldBest acc l).1 ∈ l.map Prod.fst := by
  induction l generalizing acc with
  | nil => exact Or.inl rfl
  | cons e t ih =>
    show (if e.2 > acc.2 then foldBest e t else foldBest acc t).1 = acc.1 ∨
      (if e.2 > acc.2 then foldBest e t else foldBest acc t).1 ∈ (e :: t).map Prod.fst
    by_cases h : e.2 > acc.2
    · rw [if_pos h]
      rcases ih e with h1 | h1
      · rw [h1]
        exact Or.inr (by simp)
      · exact Or.inr (by simp only [List.map_cons]; exact List.mem_cons_of_mem _ h1)
    · rw [if_neg h]
      rcases ih acc with h1 | h1
      · exact Or.inl h1
      · exact Or.inr (by simp only [List.map_cons]; exact List.mem_cons_of_mem _ h1)

theorem foldBest_fst_eq_spec (cs : List (String × Nat)) (d : String) :
    (foldBest (d, 0) cs).1 =
      if listMax cs 0 = 0 then d
      else ((cs.find? (fun e => e.2 == listMax cs 0)).map (fun e => e.1)).getD d := by
  rw [foldBest_eq_find]
  dsimp only
  by_cases h0 : listMax cs 0 = 0
  · rw [if_pos h0]
    have hnone : cs.find? (fun e => decide ((0:Nat) < e.2) && decide (listMax cs 0 ≤ e.2)) = none :=
      List.find?_eq_none.mpr (fun f hf => by
        have h1 := snd_le_listMax cs 0 f hf
        simp only [Bool.and_eq_true, decide_eq_true_eq, not_and]
        omega)
    rw [hnone]
    rfl
  · rw [if_neg h0]
    have hcong : cs.find? (fun e => decide ((0:Nat) < e.2) && decide (listMax cs 0 ≤ e.2))
        = cs.find? (fun e => e.2 == listMax cs 0) := by
      apply find?_congr_mem
      intro f hf
      have hle := snd_le_listMax cs 0 f hf
      by_cases h2 : f.2 = listMax cs 0
      · simp only [h2, beq_self_eq_true]
        simp only [Bool.and_eq_true, decide_eq_true_eq]
        omega
      · have h3 : ¬ listMax cs 0 ≤ f.2 := by omega
        simp [h2, h3]
    rw [hcong]
    rcases hf : cs.find? (fun e => e.2 == listMax cs 0) with _ | f <;> rw [hf] <;> rfl

theorem detectCategory_mem (text : String) :
    detectCategory text ∈ "Customer Service" :: CATEGORY_KEYWORDS.map Prod.fst := by
  show (foldBest ("Customer Service", 0)
    (CATEGORY_KEYWORDS.map fun e => (e.1, countMatches (lowerStr text) e.2))).1 ∈ _
  rcases foldBest_fst_mem (CATEGORY_KEYWORDS.map fun e => (e.1, countMatches (lowerStr text) e.2))
      ("Customer Service", 0) with h | h
  · rw [h]
    exact List.mem_cons_self _ _
  · refine List.mem_cons_of_mem _ ?_
    rw [List.map_map] at h
    simpa [Function.comp] using h

/- ### Claim theorems -/

/-- C1: `detectPriority` lower-cases the text, scans the tiers in the fixed
declared order critical, high, medium, low, and returns the first tier one of
whose keywords is a case-insensitive substring of the text, regardless of
matches in lower-precedence tiers; with no match anywhere (in particular on the
empty string) it returns medium. -/
theorem detectPriority_spec (text : String) :
    detectPriority text =
      (if criticalKeywords.any (fun kw => kwMatch (lowerStr text) kw) then Priority.critical
       else if highKeywords.any (fun kw => kwMatch (lowerStr text) kw) then Priority.high
       else if mediumKeywords.any (fun kw => kwMatch (lowerStr text) kw) then Priority.medium
       else if lowKeywords.any (fun kw => kwMatch (lowerStr text) kw) then Priority.low
       else Priority.medium) ∧
    detectPriority "" = Priority.medium := by
  constructor
  · unfold detectPriority PRIORITY_KEYWORDS
    cases h1 : criticalKeywords.any (fun kw => kwMatch (lowerStr text) kw) <;>
    cases h2 : highKeywords.any (fun kw => kwMatch (lowerStr text) kw) <;>
    cases h3 : mediumKeywords.any (fun kw => kwMatch (lowerStr text) kw) <;>
    cases h4 : lowKeywords.any (fun kw => kwMatch (lowerStr text) kw) <;>
    simp [List.find?, h1, h2, h3, h4]
  · decide

/-- C3: the SLA deadline is the creation time plus the priority's
resolution-hours budget, it lies strictly in the future of the creation time,
`isSLABreached` at the creation time is false, and one second after the
resolution budget has elapsed it is true. -/
theorem slaDeadline_roundtrip (p : Priority) (t0 : Int) :
    calculateSLADeadline p t0 = t0 + ((SLA_RULES p).resolutionHours : Int) * 3600000 ∧
    t0 < calculateSLADeadline p t0 ∧
    isSLABreached (calculateSLADeadline p t0) t0 = false ∧
    isSLABreached (calculateSLADeadline p t0)
      (t0 + ((SLA_RULES p).resolutionHours : Int) * 3600000 + 1000) = true := by
  refine ⟨rfl, ?_, ?_, ?_⟩ <;>
    cases p <;>
    simp [isSLABreached, calculateSLADeadline, SLA_RULES]

/-- C4: `isNearingSLA` is true iff the remaining time until the deadline is
strictly positive and at most the priority's escalation-warning window; for
priority high (4-hour window) it is true exactly 4 hours before the deadline,
false 4 hours and 1 second before, and false at zero or negative remaining
time. -/
theorem isNearingSLA_spec (dueAt now : Int) (p : Priority) :
    (isNearingSLA dueAt p now = true ↔
      0 < dueAt - now ∧ dueAt - now ≤ ((SLA_RULES p).escalationHours : Int) * 60 * 60 * 1000) ∧
    isNearingSLA (now + 4 * 3600000) Priority.high now = true ∧
    isNearingSLA (now + 4 * 3600000 + 1000) Priority.high now = false ∧
    (dueAt - now ≤ 0 → isNearingSLA dueAt p now = false) := by
  refine ⟨?_, ?_, ?_, ?_⟩
  · simp [isNearingSLA]
  · simp [isNearingSLA, SLA_RULES]
  · simp [isNearingSLA, SLA_RULES]
    omega
  · intro h
    simp [isNearingSLA]
    omega

/-- Witness for C4: at zero remaining time `isNearingSLA` is false. -/
theorem isNearingSLA_spec_witness :
    (0 : Int) - 0 ≤ 0 ∧ isNearingSLA 0 Priority.high 0 = false :=
  ⟨by decide, (isNearingSLA_spec 0 0 Priority.high).2.2.2 (by decide)⟩

/-- C5: `requiresClassDetails` is true exactly when the priority is critical,
or the category is Customer Service or Health & Safety and some
member-experience keyword occurs in the lower-cased text. -/
theorem requiresClassDetails_spec (text priority category : String) :
    requiresClassDetails text priority category = true ↔
      (priority = "critical" ∨
        ((category = "Customer Service" ∨ category = "Health & Safety") ∧
          ∃ kw ∈ MEMBER_EXPERIENCE_KEYWORDS, kwMatch (lowerStr text) kw = true)) := by
  unfold requiresClassDetails
  by_cases hp : priority = "critical" <;>
    by_cases hc : category = "Customer Service" <;>
    by_cases hh : category = "Health & Safety" <;>
    simp [hp, hc, hh, List.any_eq_true]

/-- C8: every entry of the escalation-rule table has a resulting priority that
is a valid key of the SLA table (critical, high, medium or low). -/
theorem escalation_priority_valid :
    ESCALATION_RULES.all (fun e => validPriorityKey e.2.priority) = true := by
  decide

/-- C2: `detectCategory` returns the category with the strictly greatest
keyword-match count, ties resolved in favour of the first category in declared
table order to reach the maximum, defaulting to "Customer Service" when every
category (in particular on the empty string) has zero matches. -/
theorem detectCategory_spec (text : String) :
    detectCategory text = detectCategorySpec text ∧
    detectCategory "" = "Customer Service" := by
  refine ⟨?_, by decide⟩
  show (foldBest ("Customer Service", 0)
    (CATEGORY_KEYWORDS.map fun e => (e.1, countMatches (lowerStr text) e.2))).1 = _
  rw [foldBest_fst_eq_spec]
  rfl

/-- C6: `getDepartmentRouting` is total: a key present in the routing table
resolves to its entry, any other key resolves to the designated
"Miscellaneous" fallback entry, and in particular "NonexistentCategory"
resolves to the same entry as "Miscellaneous". -/
theorem getDepartmentRouting_spec :
    getDepartmentRouting "NonexistentCategory" = getDepartmentRouting "Miscellaneous" ∧
    (∀ category r, (category, r) ∈ DEPARTMENT_ROUTING → getDepartmentRouting category = r) ∧
    (∀ category, (∀ e ∈ DEPARTMENT_ROUTING, e.1 ≠ category) →
      getDepartmentRouting category = MISC_ROUTING) := by
  refine ⟨by decide, ?_, ?_⟩
  · intro category r h
    simp only [DEPARTMENT_ROUTING, List.mem_cons, List.not_mem_nil, or_false] at h
    rcases h with h|h|h|h|h|h|h|h|h <;>
      (rw [Prod.mk.injEq] at h; obtain ⟨rfl, rfl⟩ := h; decide)
  · intro category h
    have hnone : DEPARTMENT_ROUTING.find? (fun e => e.1 == category) = none :=
      List.find?_eq_none.mpr (fun e he => by simpa using h e he)
    unfold getDepartmentRouting
    rw [hnone]

/-- Witness for C6: the "Global" key resolves to its own entry, and an
unrecognized key resolves to the "Miscellaneous" fallback entry. -/
theorem getDepartmentRouting_spec_witness :
    (("Global", (⟨"Management", "Operations",
        ["Management", "Operations"]⟩ : DeptRouting)) ∈ DEPARTMENT_ROUTING ∧
      getDepartmentRouting "Global" =
        ⟨"Management", "Operations", ["Management", "Operations"]⟩) ∧
    getDepartmentRouting "zzz" = MISC_ROUTING :=
  ⟨⟨by decide, getDepartmentRouting_spec.2.1 "Global" _ (by decide)⟩,
   getDepartmentRouting_spec.2.2 "zzz" (by decide)⟩

/-- C7: `getEscalationRule` is an exact, case-sensitive lookup that never
throws: a key present in the escalation table resolves to its rule, any other
key resolves to the explicit absent result; in particular "Theft" resolves to
the Security/critical/immediate rule and "Not A Real Subcategory" to none. -/
theorem getEscalationRule_spec :
    getEscalationRule "Theft" = some ⟨"Security", "critical", true, "management"⟩ ∧
    getEscalationRule "Not A Real Subcategory" = none ∧
    (∀ key rule, (key, rule) ∈ ESCALATION_RULES → getEscalationRule key = some rule) ∧
    (∀ key, (∀ e ∈ ESCALATION_RULES, e.1 ≠ key) → getEscalationRule key = none) := by
  refine ⟨by decide, by decide, ?_, ?_⟩
  · intro key rule h
    simp only [ESCALATION_RULES, List.mem_cons, List.not_mem_nil, or_false] at h
    rcases h with h|h|h|h|h|h|h|h|h|h|h|h|h|h <;>
      (rw [Prod.mk.injEq] at h; obtain ⟨rfl, rfl⟩ := h; decide)
  · intro key h
    have hnone : ESCALATION_RULES.find? (fun e => e.1 == key) = none :=
      List.find?_eq_none.mpr (fun e he => by simpa using h e he)
    unfold getEscalationRule
    rw [hnone]
    rfl

/-- Witness for C7: the "Theft" key is in the table and resolves to its rule,
and an unrecognized key resolves to none. -/
theorem getEscalationRule_spec_witness :
    (("Theft", (⟨"Security", "critical", true, "management"⟩ : EscalationRule))
        ∈ ESCALATION_RULES ∧
      getEscalationRule "Theft" = some ⟨"Security", "critical", true, "management"⟩) ∧
    getEscalationRule "zzz" = none :=
  ⟨⟨by decide, getEscalationRule_spec.2.2.1 "Theft" _ (by decide)⟩,
   getEscalationRule_spec.2.2.2 "zzz" (by decide)⟩

/-- C9: the category returned by `detectCategory` is always an exact key of
the department-routing table, so `getDepartmentRouting` composed with it
resolves by exact match and never takes the "Miscellaneous" miss-fallback
branch. -/
theorem detectCategory_routes_exact (text : String) :
    ∃ e ∈ DEPARTMENT_ROUTING, e.1 = detectCategory text ∧
      getDepartmentRouting (detectCategory text) = e.2 := by
  have h := detectCategory_mem text
  simp only [CATEGORY_KEYWORDS, List.map_cons, List.map_nil, List.mem_cons,
    List.not_mem_nil, or_false] at h
  rcases h with h|h|h|h|h|h|h|h <;> rw [h] <;> decide

/-- C10: `calculateSLADeadline` does not modify its `createdAt` argument: in
the state-passing embedding the caller's cell is returned unchanged while the
result is the fresh deadline value. -/
theorem calculateSLADeadline_frame (p : Priority) (t : Int) :
    (calculateSLADeadlineSt p t).2 = t ∧
    (calculateSLADeadlineSt p t).1 = calculateSLADeadline p t :=
  ⟨rfl, rfl⟩

end Ticketer
